import Mathlib

/-!
# A verification development for the `goscheme` evaluator core (`eval.go`)

This file shallowly embeds the evaluation core of the goscheme interpreter
(the trampolined `Eval` loop together with its special-form evaluators) and
proves properties about the embedding.

Modelling conventions:

* Go's dynamically typed `Expression` (`interface{}`) becomes the inductive
  type `Expression` below.  Raw tokens produced by the parser (Go `string`
  values) are the `tok` constructor; decoded runtime values (`Number`,
  `bool`, `String`, `Quote`, `*Pair`, `NilType`, `undefObj`,
  `*LambdaProcess`, `Function`, `Thunk`) each get their own constructor.
* Go's heap of environment frames becomes an explicit `Store` (a list of
  frames) threaded through evaluation; an `*Env` pointer becomes an index
  (`EnvRef`) into the store.  Closures capture the index of their defining
  frame, which models capture by reference.
* Go `panic` (every fatal interpreter error, including the Go runtime's own
  slice-bounds and index panics) becomes the `Result.err` constructor,
  carrying a structured error code and the store at the time of the panic.
  `recover` (used by `EvalAll`) catches such a result.
* The host call stack and the trampoline loop are modelled by two separate
  fuel counters.  `evalF sf lf` runs `Eval` with `sf` as the available host
  stack depth and `lf` as the available trampoline loop iterations:
  every *recursive* call to `Eval` (operand evaluation, test evaluation,
  `cond`'s evaluation of its expansion, …) decrements `sf`, while every
  re-entry of the trampoline loop (`if`/`begin` continuations and closure
  bodies) decrements only `lf`.  Thus an evaluation that succeeds at a fixed
  small `sf` for inputs of unbounded size is one that does not grow the host
  stack, while one that needs `sf` proportional to the input does.
  Exhausted fuel of either kind yields `Result.timeout`.
* Go numbers are `float64`; only integral literals appear in the core and in
  the properties proved here, so `Number` is modelled as `Int` and the
  numeric-token recognizer accepts digit strings.

Functions whose source is `eval.go` keep their names.  Helpers that live in
other files of the repository (the `Env` type, `Pair`, the token
classifiers, `listImpl`, …) are reconstructed from the specification; each
such definition carries a doc comment starting with `Modelled from the
spec:`.
-/

namespace GoScheme

/-- An environment reference: the index of a frame in the store (models a
Go `*Env` pointer). -/
abbrev EnvRef := Nat

/-- The universal expression/value type (Go's `Expression = interface{}`).
`tok` is a raw Go `string` atom as produced by the parser; the remaining
constructors are the decoded runtime representations. -/
inductive Expression where
  /-- a raw token atom (a Go `string`): symbols, numeric literals,
  string literals, `#t` / `#f`, and special-form keywords -/
  | tok (s : String)
  /-- a decoded `Number` (Go `float64`; integral here) -/
  | num (n : Int)
  /-- a Go `bool` (produced by `IsTrue` and by `and` / `or`) -/
  | boolE (b : Bool)
  /-- a decoded `String` value -/
  | strE (s : String)
  /-- a `Quote` symbol value -/
  | quoteE (s : String)
  /-- a `[]Expression` compound form (parsed syntax) -/
  | list (es : List Expression)
  /-- a `*Pair` cons cell (runtime list value) -/
  | pairE (car cdr : Expression)
  /-- the `NilObj` empty-list sentinel (`NilType`) -/
  | nilE
  /-- the `undefObj` unspecified sentinel -/
  | undefObj
  /-- a `*LambdaProcess` closure: parameter names, body sequence, and the
  captured defining environment (by reference, i.e. by store index) -/
  | lambdaE (params : List String) (body : List Expression) (env : EnvRef)
  /-- a builtin `Function`, identified by its registry name -/
  | builtin (name : String)
  /-- a `Thunk`: an unevaluated expression plus its environment -/
  | thunk (e : Expression) (env : EnvRef)
deriving Repr, Inhabited

/-- Modelled from the spec: one environment frame — a mapping from symbols
to expressions plus an outer link (an association list models the Go map;
`Set` overwrites in place). -/
structure Frame where
  frame : List (String × Expression)
  outer : Option EnvRef
deriving Repr

/-- The heap of environment frames; an `EnvRef` indexes into it. -/
abbrev Store := List Frame

/-- The outcome of running the evaluator: a value, a panic (fatal error),
or fuel exhaustion (an artifact of the fuelled embedding). -/
inductive EvalErr where
  | unboundSymbol (s : String)
  | notCallable
  | arity (required given : Nat)
  | andArity
  | orArity
  | delayArity
  | applyArity
  | applyNotList
  | malformedList
  | elseNotLast
  | notASymbol
  | defineBadSyntax
  | invalidQuote
  | typeCoercion
  | parseError
  | ioUnsupported
  /-- a Go runtime panic: slice bounds out of range -/
  | sliceBounds
  /-- a Go runtime panic: index out of range -/
  | indexOutOfRange
  /-- a Go runtime panic: failed interface type assertion -/
  | castError
deriving Repr, DecidableEq

/-- Result of an evaluator run.  `ok`/`err` carry the store because frame
mutations performed before a normal return or a panic persist on the Go
heap. -/
inductive Result where
  | ok (v : Expression) (st : Store)
  | err (e : EvalErr) (st : Store)
  | timeout
deriving Repr

/-- The errors named by the specification's error taxonomy (§7), as opposed
to raw Go runtime panics and embedding artifacts. -/
def isNamedInterpreterError : EvalErr → Bool
  | .unboundSymbol _ => true
  | .notCallable => true
  | .arity _ _ => true
  | .andArity => true
  | .orArity => true
  | .delayArity => true
  | .applyArity => true
  | .applyNotList => true
  | .malformedList => true
  | .elseNotLast => true
  | .notASymbol => true
  | .defineBadSyntax => true
  | .invalidQuote => true
  | .typeCoercion => true
  | .parseError => true
  | _ => false

/-- The value of a result, ignoring the final store. -/
def valueOf : Result → Option Expression
  | .ok v _ => some v
  | _ => none

/-- The error of a result, ignoring the final store. -/
def errOf : Result → Option EvalErr
  | .err e _ => some e
  | _ => none

/-- Modelled from the spec: `Pair.IsNull` — a constructed cons cell with a
head and a tail is not the null list. -/
def pairIsNull : Expression → Bool
  | _ => false

/-- `isNullExp` (eval.go): nil / `NilType` / a null `Pair` / an empty
`[]Expression` are the "no expression" null objects.  (Go's untyped `nil`
has no analogue here; every Lean value is a constructed `Expression`.) -/
def isNullExp : Expression → Bool
  | .nilE => true
  | .pairE a b => pairIsNull (.pairE a b)
  | .list es => es.isEmpty
  | _ => false

/-- Modelled from the spec: recognizer for the `undefObj` sentinel. -/
def isUndefObj : Expression → Bool
  | .undefObj => true
  | _ => false

/-- Modelled from the spec: numeric-token classification.  A decoded
`Number` is a number; a raw token is a number iff it is a non-empty digit
string (the spec leaves the full lexical grammar to the out-of-scope
tokenizer; integral literals are all the core's contract needs). -/
def IsNumber : Expression → Bool
  | .num _ => true
  | .tok s => !s.data.isEmpty && s.data.all Char.isDigit
  | _ => false

/-- Modelled from the spec: boolean classification — the literal tokens
`#t` / `#f` and decoded Go booleans. -/
def IsBoolean : Expression → Bool
  | .boolE _ => true
  | .tok s => s == "#t" || s == "#f"
  | _ => false

/-- Modelled from the spec: truthiness — the boolean `false` value and the
`#f` literal are falsy, every other value is truthy. -/
def IsTrue : Expression → Bool
  | .boolE b => b
  | .tok s => !(s == "#f")
  | _ => true

/-- Modelled from the spec: string-literal classification — a raw token
that starts and ends with a double quote. -/
def IsString : Expression → Bool
  | .tok s =>
    decide (2 ≤ s.data.length) && s.data.head? == some '"'
      && s.data.getLast? == some '"'
  | _ => false

/-- Modelled from the spec: symbol classification — any raw Go `string`
atom (the evaluator's dispatch order ensures numbers, booleans and string
literals are recognized first). -/
def IsSymbol : Expression → Bool
  | .tok _ => true
  | _ => false

/-- `expToString` (eval.go): extract the text between the first pair of
double quotes of a string-literal token (the regexp `"((.|[\r\n])*?)"`). -/
def expToString : Expression → Expression
  | .tok s => .strE (String.mk ((s.data.drop 1).takeWhile (fun c => c ≠ '"')))
  | _ => .strE ""

/-- `expressionToNumber` (eval.go): decode a numeric expression; a
non-numeric string decodes to 0 (Go ignores the `ParseFloat` error). -/
def expressionToNumber : Expression → Int
  | .num n => n
  | .tok s => Int.ofNat (s.data.foldl (fun acc c => acc * 10 + (c.toNat - 48)) 0)
  | _ => 0

/-- Modelled from the spec: `IsSpecialSyntaxExpression` — a compound form
whose leading element is the given keyword token. -/
def IsSpecialSyntaxExpression (exp : Expression) (name : String) : Bool :=
  match exp with
  | .list (.tok s :: _) => s == name
  | _ => false

/-- `isQuoteExpression` (eval.go): the token `quote` itself, or a compound
form headed by it.  (An empty compound form never reaches this test: the
null check at the top of the loop returns first.) -/
def isQuoteExpression : Expression → Bool
  | .tok s => s == "quote"
  | .list (.tok s :: _) => s == "quote"
  | _ => false

/-- Modelled from the spec: `Pair.IsList` — holds iff every tail is itself
a `Pair` or the null marker. -/
def isListB : Expression → Bool
  | .nilE => true
  | .pairE _ cdr => isListB cdr
  | _ => false

/-- Modelled from the spec: the free-standing `isList` check used by
`apply` and `load`: the value is a `*Pair` forming a proper list. -/
def isList : Expression → Bool
  | .pairE a b => isListB (.pairE a b)
  | _ => false

/-- Modelled from the spec: `listImpl` — materialize a sequence of values
as a `Pair`-chain proper list terminated by the null marker. -/
def listImpl (args : List Expression) : Expression :=
  args.foldr Expression.pairE Expression.nilE

/-- Modelled from the spec: `extractList` — flatten a `Pair` chain into a
sequence of values. -/
def extractList : Expression → List Expression
  | .pairE car cdr => car :: extractList cdr
  | _ => []

/-- `validEvalExp` (eval.go): a value is a valid `eval` argument iff every
`Pair` sub-structure of it is a proper list. -/
def validEvalExp : Expression → Bool
  | .pairE car cdr =>
    isListB (.pairE car cdr) && validEvalExp car && validEvalExp cdr
  | _ => true

/-- `transExpressionToSymbol` (eval.go): a symbol token converts to a
`Symbol`; anything else is a fatal "not a symbol" panic. -/
def transExpressionToSymbol : Expression → Except EvalErr String
  | .tok s => .ok s
  | _ => .error .notASymbol

/-- Convert a whole parameter list, left to right. -/
def symbolsOf : List Expression → Except EvalErr (List String)
  | [] => .ok []
  | e :: rest => do
    let s ← transExpressionToSymbol e
    let ss ← symbolsOf rest
    .ok (s :: ss)

/-- Association-list update used to model a Go map write. -/
def setAssoc : List (String × Expression) → String → Expression →
    List (String × Expression)
  | [], k, v => [(k, v)]
  | (k', v') :: rest, k, v =>
    if k' = k then (k, v) :: rest else (k', v') :: setAssoc rest k v

/-- Association-list lookup used to model a Go map read. -/
def getAssoc : List (String × Expression) → String → Option Expression
  | [], _ => none
  | (k', v') :: rest, k => if k' = k then some v' else getAssoc rest k

/-- Modelled from the spec: `Env.Find` — walk outward through the `outer`
links until a binding is found or the chain is exhausted.  The fuel bounds
the walk; chains built by the evaluator always point to strictly earlier
frames, so `st.length + 1` steps suffice. -/
def envFindAux : Nat → Store → EnvRef → String → Option Expression
  | 0, _, _, _ => none
  | fu + 1, st, r, s =>
    match st.get? r with
    | none => none
    | some fr =>
      match getAssoc fr.frame s with
      | some v => some v
      | none =>
        match fr.outer with
        | some o => envFindAux fu st o s
        | none => none

/-- `Env.Find`, with the walk bounded by the store size. -/
def envFind (st : Store) (r : EnvRef) (s : String) : Option Expression :=
  envFindAux (st.length + 1) st r s

/-- Modelled from the spec: `Env.Set` — define/overwrite in the current
frame only. -/
def envSet (st : Store) (r : EnvRef) (name : String) (v : Expression) :
    Store :=
  match st.get? r with
  | none => st
  | some fr => st.set r ⟨setAssoc fr.frame name v, fr.outer⟩

/-- `makeLambdaProcess` (eval.go): build a closure from parameter names,
body and the defining environment. -/
def makeLambdaProcess (paramNames : List String) (body : List Expression)
    (env : EnvRef) : Expression :=
  .lambdaE paramNames body env

mutual

/-- `evalQuote` (eval.go): numbers decode to their numeric value, numeric
and string-literal tokens decode to their typed form, other atoms decode to
a `Quote` symbol, and compound forms recursively quote each element and are
materialized as a `Pair`-chain list. -/
def evalQuote : Expression → Except EvalErr Expression
  | .num n => .ok (.num n)
  | .tok s =>
    if IsNumber (.tok s) then .ok (.num (expressionToNumber (.tok s)))
    else if IsString (.tok s) then .ok (expToString (.tok s))
    else .ok (.quoteE s)
  | .list v => do
    let args ← evalQuoteList v
    .ok (listImpl args)
  | _ => .error .invalidQuote

/-- The element-wise recursion of `evalQuote` over a compound form. -/
def evalQuoteList : List Expression → Except EvalErr (List Expression)
  | [] => .ok []
  | e :: rest => do
    let a ← evalQuote e
    let as ← evalQuoteList rest
    .ok (a :: as)

end

/-- The type of the evaluator's recursive self-call (a nested host-stack
invocation of `Eval`). -/
abbrev Recur := Expression → EnvRef → Store → Result

/-- `conditionOfIfExpression` (eval.go): `exp[1]`; `none` models the Go
index-out-of-range panic. -/
def conditionOfIfExpression (e : List Expression) : Option Expression :=
  e.get? 1

/-- `trueExpOfIfExpression` (eval.go): `exp[2]`. -/
def trueExpOfIfExpression (e : List Expression) : Option Expression :=
  e.get? 2

/-- `elseExpOfIfExpression` (eval.go): `exp[3]`, or the unspecified
sentinel when no alternative was supplied. -/
def elseExpOfIfExpression (e : List Expression) : Expression :=
  if e.length < 4 then .undefObj else e.getD 3 .undefObj

/-- `evalIf` (eval.go): evaluate the test (a nested `Eval` call through
`recur`); on a true test the *consequent expression* is returned for the
trampoline loop, otherwise the alternative (or the unspecified sentinel).
An `ok` result here carries the next expression to evaluate, not a value. -/
def evalIf (recur : Recur) (e : List Expression) (env : EnvRef)
    (st : Store) : Result :=
  match conditionOfIfExpression e with
  | none => .err .indexOutOfRange st
  | some cond =>
    match recur cond env st with
    | .ok v st' =>
      if IsTrue v then
        match trueExpOfIfExpression e with
        | some t => .ok t st'
        | none => .err .indexOutOfRange st'
      else .ok (elseExpOfIfExpression e) st'
    | r => r

/-- The strict evaluation of `begin`'s non-final sub-expressions; on
success the pending final expression is returned for the trampoline loop. -/
def evalSeqThen (recur : Recur) : List Expression → Expression → EnvRef →
    Store → Result
  | [], lastE, _, st => .ok lastE st
  | e :: rest, lastE, env, st =>
    match recur e env st with
    | .ok _ st' => evalSeqThen recur rest lastE env st'
    | r => r

/-- `evalBegin` (eval.go): evaluate `exp[1 : len(exp)-1]` strictly for side
effects and return `exp[len(exp)-1]` unevaluated for the loop.  On a
one-element form (`(begin)`), the Go slice `exp[1:0]` panics with a
slice-bounds runtime error. -/
def evalBegin (recur : Recur) (exps : List Expression) (env : EnvRef)
    (st : Store) : Result :=
  if exps.length < 2 then .err .sliceBounds st
  else evalSeqThen recur ((exps.drop 1).dropLast) (exps.getLastD .undefObj)
    env st

/-- `makeIf` (eval.go). -/
def makeIf (condition trueExp elseExp : Expression) : Expression :=
  .list [.tok "if", condition, trueExp, elseExp]

/-- `sequenceToExp` (eval.go): a `[]Expression` sequence becomes an
implicit `begin` form; any other expression is returned unchanged. -/
def sequenceToExp : Expression → Expression
  | .list exs => .list (.tok "begin" :: exs)
  | e => e

/-- `isElseClause` (eval.go), specialized to the head element of a clause:
the Go comparison `v[0] == "else"` holds only for the `else` token.  (The
`v[0]` index panic on an empty clause is handled at the call site.) -/
def isElseTok : Expression → Bool
  | .tok s => s == "else"
  | _ => false

/-- `condClausesToIf` (eval.go): desugar a `cond` clause list, walked left
to right building nested `if`s; an exhausted clause list desugars to the
unspecified sentinel; an `else` clause anywhere but last is a fatal error.
A clause that is not a compound form models the Go type-assertion panic
`exp[0].([]Expression)`; an empty clause models `isElseClause`'s `v[0]`
index panic. -/
def condClausesToIf : List Expression → Except EvalErr Expression
  | [] => .ok .undefObj
  | c :: rest =>
    match c with
    | .list [] => .error .indexOutOfRange
    | .list (c0 :: body) =>
      if isElseTok c0 then
        if rest.isEmpty then .ok (sequenceToExp (.list body))
        else .error .elseNotLast
      else do
        let restIf ← condClausesToIf rest
        .ok (makeIf c0 (sequenceToExp (.list body)) restIf)
    | _ => .error .castError

/-- `condClauses` (eval.go): `exp[1:]`. -/
def condClauses (exps : List Expression) : List Expression :=
  exps.drop 1

/-- `expandCond` (eval.go). -/
def expandCond (exps : List Expression) : Except EvalErr Expression :=
  condClausesToIf (condClauses exps)

/-- `evalCond` (eval.go): desugar the whole `cond` form into nested `if`s
and evaluate the result through a *recursive* `Eval` call (this branch
returns a final value to the loop rather than a next expression). -/
def evalCond (recur : Recur) (exps : List Expression) (env : EnvRef)
    (st : Store) : Result :=
  match expandCond exps with
  | .error e => .err e st
  | .ok ifExp => recur ifExp env st

/-- The operand loop of `evalAnd` (eval.go). -/
def evalAndRest (recur : Recur) : List Expression → EnvRef → Store → Result
  | [], _, st => .ok (.boolE true) st
  | e :: rest, env, st =>
    match recur e env st with
    | .ok v st' =>
      if IsTrue v then evalAndRest recur rest env st'
      else .ok (.boolE false) st'
    | r => r

/-- `evalAnd` (eval.go): at least one operand required; operands evaluated
left to right; boolean `false` on the first falsy operand (the rest
unevaluated), else boolean `true`. -/
def evalAnd (recur : Recur) (exps : List Expression) (env : EnvRef)
    (st : Store) : Result :=
  if exps.length < 2 then .err .andArity st
  else evalAndRest recur (exps.drop 1) env st

/-- The operand loop of `evalOr` (eval.go). -/
def evalOrRest (recur : Recur) : List Expression → EnvRef → Store → Result
  | [], _, st => .ok (.boolE false) st
  | e :: rest, env, st =>
    match recur e env st with
    | .ok v st' =>
      if IsTrue v then .ok (.boolE true) st'
      else evalOrRest recur rest env st'
    | r => r

/-- `evalOr` (eval.go): at least one operand required; boolean `true` on
the first truthy operand (the rest unevaluated), else boolean `false`. -/
def evalOr (recur : Recur) (exps : List Expression) (env : EnvRef)
    (st : Store) : Result :=
  if exps.length < 2 then .err .orArity st
  else evalOrRest recur (exps.drop 1) env st

/-- `evalDelay` (eval.go): fewer than one operand is a fatal error
(`len(exps) < 2` counting the keyword); otherwise a `Thunk` capturing
`exps[1]` unevaluated together with the current environment. -/
def evalDelay (exps : List Expression) (env : EnvRef) (st : Store) :
    Result :=
  if exps.length < 2 then .err .delayArity st
  else .ok (.thunk (exps.getD 1 .undefObj) env) st

/-- `evalLambda` (eval.go): `se[1]` is the parameter spec (a sequence of
symbols, or a single symbol), `se[2:]` the body; produces a closure
capturing the current environment by reference. -/
def evalLambda (exps : List Expression) (env : EnvRef) :
    Except EvalErr Expression :=
  match exps.get? 1 with
  | none => .error .indexOutOfRange
  | some paramOperand =>
    match paramOperand with
    | .list p => do
      let ps ← symbolsOf p
      .ok (makeLambdaProcess ps (exps.drop 2) env)
    | e => do
      let s ← transExpressionToSymbol e
      .ok (makeLambdaProcess [s] (exps.drop 2) env)

/-- `evalDefine` (eval.go): a compound target is sugar for a lambda
definition bound to the head symbol; a plain target requires exactly one
value expression, evaluated in the current environment and bound in the
current frame.  Returns the unspecified sentinel. -/
def evalDefine (recur : Recur) (s : Expression) (val : List Expression)
    (env : EnvRef) (st : Store) : Result :=
  match s with
  | .list se =>
    match symbolsOf se with
    | .error e => .err e st
    | .ok syms =>
      match syms with
      | [] => .err .indexOutOfRange st
      | name :: params =>
        .ok .undefObj (envSet st env name (makeLambdaProcess params val env))
  | other =>
    if val.length ≠ 1 then .err .defineBadSyntax st
    else
      match transExpressionToSymbol other with
      | .error e => .err e st
      | .ok name =>
        match recur (val.getD 0 .undefObj) env st with
        | .ok v st' => .ok .undefObj (envSet st' env name v)
        | r => r

/-- Modelled from the spec: `LambdaProcess.Body` — the closure body
sequence conceptually wrapped as an implicit `begin` (via the same shape
`sequenceToExp` produces). -/
def lambdaBody (body : List Expression) : Expression :=
  sequenceToExp (.list body)

/-- Numeric summation used by the modelled `+` builtin; any non-numeric
argument fails coercion. -/
def sumNums : List Expression → Int → Except EvalErr Int
  | [], acc => .ok acc
  | .num n :: rest, acc => sumNums rest (acc + n)
  | _, _ => .error .typeCoercion

/-- Modelled from the spec: the builtin procedure registry, out of scope
for the core; the contract is only "invoke with evaluated arguments,
produce an expression or fail".  `+` (numeric addition) and `cons` are
enough of the registry to exercise the application and meta-evaluation
paths. -/
def callBuiltin (name : String) (args : List Expression) :
    Except EvalErr Expression :=
  if name = "+" then
    match sumNums args 0 with
    | .ok n => .ok (.num n)
    | .error e => .error e
  else if name = "cons" then
    match args with
    | [a, b] => .ok (.pairE a b)
    | _ => .error .typeCoercion
  else .error .typeCoercion

/-- Left-to-right evaluation of the operand list of a builtin application;
`ok` carries the evaluated arguments wrapped back into a compound form. -/
def evalArgs (recur : Recur) : List Expression → EnvRef → Store → Result
  | [], _, st => .ok (.list []) st
  | a :: rest, env, st =>
    match recur a env st with
    | .ok v st' =>
      match evalArgs recur rest env st' with
      | .ok (.list vs) st'' => .ok (.list (v :: vs)) st''
      | r => r
    | r => r

/-- Left-to-right evaluation of closure-call operands (in the caller's
environment), each bound to its parameter in the fresh frame `newEnv` as
it is evaluated (the Go loop `newEnv.Set(p.params[i], Eval(arg, env))`). -/
def bindArgs (recur : Recur) : List String → List Expression → EnvRef →
    EnvRef → Store → Result
  | [], _, _, _, st => .ok .undefObj st
  | _, [], _, _, st => .ok .undefObj st
  | p :: ps, a :: as, env, newEnv, st =>
    match recur a env st with
    | .ok v st' => bindArgs recur ps as env newEnv (envSet st' newEnv p v)
    | r => r

/-- `EvalAll` (eval.go): evaluate a sequence of top-level forms in order,
returning the last result.  The deferred `recover` catches any panic,
reports it, and returns whatever the last *completed* evaluation produced
(the named return `ret`, whose zero value nil is modelled by the null
object). -/
def evalAllAux (recur : Recur) : List Expression → Expression → EnvRef →
    Store → Result
  | [], ret, _, st => .ok ret st
  | e :: rest, ret, env, st =>
    match recur e env st with
    | .ok v st' => evalAllAux recur rest v env st'
    | .err _ st' => .ok ret st'
    | .timeout => .timeout

/-- `EvalAll` (eval.go), starting from the zero-valued return slot. -/
def EvalAll (recur : Recur) (exps : List Expression) (env : EnvRef)
    (st : Store) : Result :=
  evalAllAux recur exps .nilE env st

mutual

/-- Modelled from the spec: rendering a runtime value back to source text
followed by re-tokenizing and re-parsing (`valueToString`,
`NewTokenizerFromString`, `Tokens`, `Parse` — all outside the core), fused
into one syntax-reconstruction step.  Numbers render to numeric literals,
`Quote` symbols to symbol tokens, strings to string literals, booleans to
`#t`/`#f`, and proper `Pair` chains to compound forms, element by element.
Values with no source rendering fail as a parse error. -/
def renderValue : Expression → Except EvalErr Expression
  | .num n => .ok (.num n)
  | .quoteE s => .ok (.tok s)
  | .strE s => .ok (.tok ("\"" ++ s ++ "\""))
  | .boolE b => .ok (.tok (if b then "#t" else "#f"))
  | .nilE => .ok (.list [])
  | .pairE car cdr => do
    let e ← renderValue car
    let es ← renderChain cdr
    .ok (.list (e :: es))
  | _ => .error .parseError

/-- Render each element of the tail of a proper `Pair` chain. -/
def renderChain : Expression → Except EvalErr (List Expression)
  | .nilE => .ok []
  | .pairE car cdr => do
    let e ← renderValue car
    let es ← renderChain cdr
    .ok (e :: es)
  | _ => .error .parseError

end

/-- The re-parsing step of `eval`: a single value reconstructs to a single
top-level form. -/
def reparse (v : Expression) : Except EvalErr (List Expression) := do
  let e ← renderValue v
  .ok [e]

/-- `evalEval` (eval.go): evaluate the operand; the value must satisfy
`validEvalExp` or a fatal malformed-list error is raised; the value is
rendered back to text, re-tokenized and re-parsed (a parse failure
propagates fatally), and the resulting forms are evaluated through
`EvalAll`, whose `recover` catches any failure of that secondary
evaluation. -/
def evalEval (recur : Recur) (operand : Expression) (env : EnvRef)
    (st : Store) : Result :=
  match recur operand env st with
  | .ok arg st' =>
    if !validEvalExp arg then .err .malformedList st'
    else
      match reparse arg with
      | .error e => .err e st'
      | .ok forms => EvalAll recur forms env st'
  | r => r

/-- `evalApply` (eval.go): exactly two operands; evaluate the procedure
expression then the list expression; the list value is unpacked and a
synthetic application form `(procedure arg1 arg2 ...)` is evaluated through
the normal application path. -/
def evalApply (recur : Recur) (args : List Expression) (env : EnvRef)
    (st : Store) : Result :=
  if args.length ≠ 2 then .err .applyArity st
  else
    match recur (args.getD 0 .undefObj) env st with
    | .ok procedure st' =>
      match recur (args.getD 1 .undefObj) env st' with
      | .ok arg st'' =>
        if !isList arg then .err .applyNotList st''
        else recur (.list (procedure :: extractList arg)) env st''
      | r => r
    | r => r

/-- One run of the trampoline loop of `Eval` (eval.go), with `recur` the
nested (host-stack) recursive `Eval` call and the `Nat` argument the loop
fuel: each `for` iteration of the Go loop consumes one unit.  The branch
order is exactly the source's `if`/`else if` chain.  `if` and `begin`
mutate `exp` and re-enter the loop; every other special form returns.
In the closure-application case the Go code allocates the fresh frame
before the arity check; an unreferenced allocation is unobservable on the
Go heap, so the store append is placed after the check. -/
def evalBody (recur : Recur) : Nat → Expression → EnvRef → Store → Result
  | 0, _, _, _ => .timeout
  | lf + 1, exp, env, st =>
    if isNullExp exp then .ok .nilE st
    else if isUndefObj exp then .ok .undefObj st
    else if IsNumber exp then .ok (.num (expressionToNumber exp)) st
    else if IsBoolean exp then .ok (.boolE (IsTrue exp)) st
    else if IsString exp then .ok (expToString exp) st
    else if IsSymbol exp then
      match exp with
      | .tok s =>
        match envFind st env s with
        | some v => .ok v st
        | none => .err (.unboundSymbol s) st
      | _ => .err .castError st
    else
      match exp with
      | .list ops =>
        if IsSpecialSyntaxExpression (.list ops) "define" then
          match ops.get? 1 with
          | none => .err .indexOutOfRange st
          | some target => evalDefine recur target (ops.drop 2) env st
        else if IsSpecialSyntaxExpression (.list ops) "eval" then
          match ops.get? 1 with
          | none => .err .indexOutOfRange st
          | some operand => evalEval recur operand env st
        else if IsSpecialSyntaxExpression (.list ops) "apply" then
          evalApply recur (ops.drop 1) env st
        else if IsSpecialSyntaxExpression (.list ops) "if" then
          match evalIf recur ops env st with
          | .ok nextE st' => evalBody recur lf nextE env st'
          | r => r
        else if IsSpecialSyntaxExpression (.list ops) "cond" then
          evalCond recur ops env st
        else if IsSpecialSyntaxExpression (.list ops) "begin" then
          match evalBegin recur ops env st with
          | .ok nextE st' => evalBody recur lf nextE env st'
          | r => r
        else if IsSpecialSyntaxExpression (.list ops) "lambda" then
          match evalLambda ops env with
          | .ok v => .ok v st
          | .error e => .err e st
        else if IsSpecialSyntaxExpression (.list ops) "load" then
          match ops.get? 1 with
          | none => .err .indexOutOfRange st
          | some _ => .err .ioUnsupported st
        else if IsSpecialSyntaxExpression (.list ops) "delay" then
          evalDelay ops env st
        else if IsSpecialSyntaxExpression (.list ops) "and" then
          evalAnd recur ops env st
        else if IsSpecialSyntaxExpression (.list ops) "or" then
          evalOr recur ops env st
        else if isQuoteExpression (.list ops) then
          match ops.get? 1 with
          | none => .err .indexOutOfRange st
          | some q =>
            match evalQuote q with
            | .ok v => .ok v st
            | .error e => .err e st
        else
          match recur (ops.getD 0 .undefObj) env st with
          | .ok fn st' =>
            match fn with
            | .builtin name =>
              match evalArgs recur (ops.drop 1) env st' with
              | .ok (.list args) st'' =>
                match callBuiltin name args with
                | .ok v => .ok v st''
                | .error e => .err e st''
              | .ok _ st'' => .err .castError st''
              | r => r
            | .lambdaE params body cenv =>
              if (ops.drop 1).length ≠ params.length then
                .err (.arity params.length (ops.drop 1).length) st'
              else
                let newEnv := st'.length
                let st'' := st' ++ [⟨[], some cenv⟩]
                match bindArgs recur params (ops.drop 1) env newEnv st'' with
                | .ok _ st3 => evalBody recur lf (lambdaBody body) newEnv st3
                | r => r
            | _ => .err .notCallable st'
          | r => r
      | e => .ok e st

/-- `Eval` (eval.go), fuelled: `sf` is the available host stack depth
(each nested recursive `Eval` call consumes one unit), `lf` the available
trampoline loop iterations. -/
def evalF : Nat → Nat → Expression → EnvRef → Store → Result
  | 0, _, _, _, _ => .timeout
  | sf + 1, lf, exp, env, st =>
    evalBody (fun e en s => evalF sf lf e en s) lf exp env st

/-- The initial store: one root frame with no outer link, holding the
modelled builtin registry (`+` and `cons`). -/
def rootStore : Store :=
  [⟨[("+", .builtin "+"), ("cons", .builtin "cons")], none⟩]

/-! ## Test inputs for the claims -/

/-- A tower of `if` forms, each carrying the next in tail position:
`(if #t (if #t … 0) 0)`, bottoming out in the literal `42`. -/
def ifChain : Nat → Expression
  | 0 => .num 42
  | n + 1 => .list [.tok "if", .tok "#t", ifChain n, .num 0]

/-- A tower of `begin` forms, each carrying the next as its final
sub-expression, bottoming out in the literal `42`. -/
def beginChain : Nat → Expression
  | 0 => .num 42
  | n + 1 => .list [.tok "begin", beginChain n]

/-- A tower of `cond` forms, each carrying the next in the body of its
single always-true clause, bottoming out in the literal `42`. -/
def condChain : Nat → Expression
  | 0 => .num 42
  | n + 1 => .list [.tok "cond", .list [.tok "#t", condChain n]]

/-- The lexical-scoping program: `x` bound at top level, `f` a top-level
closure reading `x`, `g` a closure shadowing `x` by its parameter and
calling `f`. -/
def scopeDemo : Expression :=
  .list [.tok "begin",
    .list [.tok "define", .tok "x", .tok "10"],
    .list [.tok "define", .tok "f", .list [.tok "lambda", .list [], .tok "x"]],
    .list [.tok "define", .tok "g",
      .list [.tok "lambda", .list [.tok "x"], .list [.tok "f"]]],
    .list [.tok "g", .tok "99"]]

/-- An `apply` form handing the quoted list `(1 2 3)` to a three-parameter
closure whose body is the given expression. -/
def applyDemo (body : Expression) : Expression :=
  .list [.tok "apply",
    .list [.tok "lambda", .list [.tok "a", .tok "b", .tok "c"], body],
    .list [.tok "quote", .list [.tok "1", .tok "2", .tok "3"]]]

/-! ## Loop lemmas for the trampolined forms -/

/-- An `if` tower of any height runs inside a single trampoline loop: with
a host stack depth of just 2 (one nested call for each test evaluation),
`n + 1` loop iterations reduce `ifChain n` to its bottom literal.  Each
step of the induction is definitional: the loop re-enters with the chosen
branch rather than calling the evaluator recursively on it. -/
theorem ifChain_loop (LF : Nat) :
    ∀ n k (env : EnvRef) (st : Store),
      evalBody (fun e en s => evalF 2 (LF + 1) e en s) (k + (n + 1))
        (ifChain n) env st = .ok (.num 42) st := by
  intro n
  induction n with
  | zero => intro k env st; rfl
  | succ n ih =>
    intro k env st
    have h : evalBody (fun e en s => evalF 2 (LF + 1) e en s) (k + (n + 2))
        (ifChain (n + 1)) env st
        = evalBody (fun e en s => evalF 2 (LF + 1) e en s) (k + (n + 1))
        (ifChain n) env st := rfl
    exact h.trans (ih k env st)

/-- A `begin` tower of any height runs inside a single trampoline loop,
for an arbitrary nested evaluator `r`: `begin` never calls `r` on its
final sub-expression, it hands it back to the loop. -/
theorem beginChain_loop (r : Recur) :
    ∀ n k (env : EnvRef) (st : Store),
      evalBody r (k + (n + 1)) (beginChain n) env st = .ok (.num 42) st := by
  intro n
  induction n with
  | zero => intro k env st; rfl
  | succ n ih =>
    intro k env st
    have h : evalBody r (k + (n + 2)) (beginChain (n + 1)) env st
        = evalBody r (k + (n + 1)) (beginChain n) env st := rfl
    exact h.trans (ih k env st)

/-! ## The claims -/

set_option maxRecDepth 100000 in
/-- C1 counterexample: at identical fuels (host stack depth 3, 60 loop
iterations) a 10-deep `if` tower and a 10-deep `begin` tower evaluate to
completion, but the 10-deep `cond` tower exhausts the host stack fuel —
and succeeds once the stack budget is raised to 12.  So `cond` *does*
recursively call `Eval` on its chosen continuation (the expanded `cond`),
growing the host stack proportionally to the nesting depth, contrary to
the claim. -/
theorem claim_C1_counterexample :
    evalF 3 60 (ifChain 10) 0 rootStore = .ok (.num 42) rootStore
  ∧ evalF 3 60 (beginChain 10) 0 rootStore = .ok (.num 42) rootStore
  ∧ evalF 3 60 (condChain 10) 0 rootStore = .timeout
  ∧ evalF 12 60 (condChain 10) 0 rootStore = .ok (.num 42) rootStore :=
  ⟨rfl, rfl, rfl, rfl⟩

set_option maxRecDepth 100000 in
/-- C1 (amended): for every expression whose leading symbol is `if` or
`begin`, the evaluator does not recursively call `Eval` on the chosen
continuation — it returns the next expression and the trampoline loop
re-enters with it, so such forms in tail position run at a constant host
stack depth (here: depth 3 suffices for towers of every height `n`).  For
`cond`, the evaluator recursively calls `Eval` on the expanded form, so
nested tail `cond`s grow the host stack with their depth (a 10-deep tower
fails at stack depth 3 with ample loop fuel and succeeds at depth 12). -/
theorem claim_C1_amended :
    (∀ n (env : EnvRef) (st : Store),
      evalF 3 (n + 2) (ifChain n) env st = .ok (.num 42) st)
  ∧ (∀ n (env : EnvRef) (st : Store),
      evalF 3 (n + 2) (beginChain n) env st = .ok (.num 42) st)
  ∧ evalF 3 60 (condChain 10) 0 rootStore = .timeout
  ∧ evalF 12 60 (condChain 10) 0 rootStore = .ok (.num 42) rootStore := by
  refine ⟨?_, ?_, rfl, rfl⟩
  · intro n env st
    have h := ifChain_loop (n + 1) n 1 env st
    have h2 : 1 + (n + 1) = n + 2 := by omega
    rw [h2] at h
    exact h
  · intro n env st
    have h := beginChain_loop (fun e en s => evalF 2 (n + 2) e en s) n 1 env st
    have h2 : 1 + (n + 1) = n + 2 := by omega
    rw [h2] at h
    exact h

/-- C2 counterexample: applying the non-callable `5` to the unbound symbol
`zzz` raises the not-callable error, not the unbound-symbol error that
evaluating the operand would raise (second conjunct) — so the callability
check happens *before* the operand is evaluated, contrary to the claim
that every operand is evaluated before any arity or callability check. -/
theorem claim_C2_counterexample :
    evalF 9 9 (.list [.tok "5", .tok "zzz"]) 0 rootStore
      = .err .notCallable rootStore
  ∧ evalF 9 9 (.tok "zzz") 0 rootStore
      = .err (.unboundSymbol "zzz") rootStore :=
  ⟨rfl, rfl⟩

/-- C2 (amended): for every application, `Eval` first evaluates the
operator and then dispatches on the operator's runtime kind; operands are
evaluated left-to-right only after that dispatch — for a builtin all
operands are evaluated and passed ((+ 1 2) = 3); for a closure the arity
check precedes operand evaluation (the error is raised for arbitrary,
never-evaluated operands); for a non-callable operator the fatal
not-callable error is raised without evaluating any operand.  The third
conjunct observes left-to-right operand order (the first operand defines
`x`, the second reads it); the fourth observes operator-before-operand
order (the operator defines `y`, the operand reads it). -/
theorem claim_C2_amended :
    (∀ (e : Expression) (st : Store),
      evalF 9 9 (.list [.tok "5", e]) 0 st = .err .notCallable st)
  ∧ (∀ (e1 e2 : Expression) (env : EnvRef) (st : Store),
      evalF 9 9 (.list [.list [.tok "lambda", .list [.tok "a"], .tok "a"],
        e1, e2]) env st = .err (.arity 1 2) st)
  ∧ valueOf (evalF 9 20 (.list
      [.list [.tok "lambda", .list [.tok "a", .tok "b"], .tok "b"],
       .list [.tok "define", .tok "x", .tok "7"], .tok "x"]) 0 rootStore)
      = some (.num 7)
  ∧ valueOf (evalF 9 20 (.list
      [.list [.tok "begin", .list [.tok "define", .tok "y", .tok "8"],
              .list [.tok "lambda", .list [.tok "a"], .tok "a"]],
       .tok "y"]) 0 rootStore) = some (.num 8)
  ∧ evalF 5 5 (.list [.tok "+", .tok "1", .tok "2"]) 0 rootStore
      = .ok (.num 3) rootStore :=
  ⟨fun _ _ => rfl, fun _ _ _ _ => rfl, rfl, rfl, rfl⟩

/-- C3: a closure call with an argument count different from the parameter
count raises the fatal arity error before any operand is evaluated (first
two conjuncts, for arbitrary bodies and arbitrary operand expressions); on
an exact match each parameter is bound to its evaluated argument
positionally (third and fourth conjuncts); and the new frame's outer link
is the closure's *captured* environment, not the caller's: in `scopeDemo`
the top-level `f` reads `x` as `10` even though its caller `g` binds a
local `x = 99`. -/
theorem claim_C3 :
    (∀ (b : List Expression) (e1 e2 : Expression) (env : EnvRef) (st : Store),
      evalF 9 9 (.list [.lambdaE ["a"] b 0, e1, e2]) env st
        = .err (.arity 1 2) st)
  ∧ (∀ (b : List Expression) (e1 : Expression) (env : EnvRef) (st : Store),
      evalF 9 9 (.list [.lambdaE ["a", "b"] b 0, e1]) env st
        = .err (.arity 2 1) st)
  ∧ valueOf (evalF 9 20 (.list
      [.list [.tok "lambda", .list [.tok "a", .tok "b"], .tok "a"],
       .tok "1", .tok "2"]) 0 rootStore) = some (.num 1)
  ∧ valueOf (evalF 9 20 (.list
      [.list [.tok "lambda", .list [.tok "a", .tok "b"], .tok "b"],
       .tok "1", .tok "2"]) 0 rootStore) = some (.num 2)
  ∧ valueOf (evalF 20 60 scopeDemo 0 rootStore) = some (.num 10) :=
  ⟨fun _ _ _ _ _ => rfl, fun _ _ _ _ => rfl, rfl, rfl, rfl⟩

/-- C4 counterexample: `(delay 1 2)` has two operands, yet the evaluator
raises no error — it returns a thunk of the *first* operand.  The claim
that an operand count different from one raises a fatal error is false
(the guard in `evalDelay` is `len(exps) < 2`, which only rejects zero
operands). -/
theorem claim_C4_counterexample :
    evalF 2 2 (.list [.tok "delay", .tok "1", .tok "2"]) 0 rootStore
      = .ok (.thunk (.tok "1") 0) rootStore :=
  rfl

/-- C4 (amended): evaluating a `delay` form with zero operands raises the
fatal malformed-special-form error; with one or more operands it returns a
`Thunk` capturing the first operand unevaluated (arbitrary expression `e`,
never looked at) together with the current environment; extra operands are
ignored. -/
theorem claim_C4_amended :
    (∀ (env : EnvRef) (st : Store),
      evalF 2 2 (.list [.tok "delay"]) env st = .err .delayArity st)
  ∧ (∀ (e : Expression) (env : EnvRef) (st : Store),
      evalF 2 2 (.list [.tok "delay", e]) env st = .ok (.thunk e env) st)
  ∧ (∀ (e1 e2 : Expression) (env : EnvRef) (st : Store),
      evalF 2 2 (.list [.tok "delay", e1, e2]) env st
        = .ok (.thunk e1 env) st) :=
  ⟨fun _ _ => rfl, fun _ _ _ => rfl, fun _ _ _ _ => rfl⟩

/-- C5: `(and)` and `(or)` raise the fatal zero-operand syntax error;
`(and #t #t #f X)` returns boolean `false` without evaluating the
arbitrary trailing operand `X`; `(or #f #f #t X)` returns boolean `true`
without evaluating `X`; and a truthy non-boolean final operand still
yields boolean `true`, never the operand's value (`(and #t 5)` is `#t`,
not `5`). -/
theorem claim_C5 :
    (∀ (env : EnvRef) (st : Store),
      evalF 9 9 (.list [.tok "and"]) env st = .err .andArity st)
  ∧ (∀ (env : EnvRef) (st : Store),
      evalF 9 9 (.list [.tok "or"]) env st = .err .orArity st)
  ∧ (∀ (X : Expression) (st : Store),
      evalF 9 9 (.list [.tok "and", .tok "#t", .tok "#t", .tok "#f", X]) 0 st
        = .ok (.boolE false) st)
  ∧ (∀ (X : Expression) (st : Store),
      evalF 9 9 (.list [.tok "or", .tok "#f", .tok "#f", .tok "#t", X]) 0 st
        = .ok (.boolE true) st)
  ∧ evalF 9 9 (.list [.tok "and", .tok "#t", .tok "5"]) 0 rootStore
      = .ok (.boolE true) rootStore :=
  ⟨fun _ _ => rfl, fun _ _ => rfl, fun _ _ => rfl, fun _ _ => rfl, rfl⟩

/-- C6: for an `if` form the test is evaluated first and the loop
continues with the chosen branch only: with a true test the run continues
with the consequent `A` (the alternative `B` arbitrary and untouched),
with a false test it continues with the alternative `B` (`A` untouched),
and a false test with no alternative yields the unspecified sentinel. -/
theorem claim_C6 :
    (∀ (A B : Expression) (env : EnvRef) (st : Store) (lf : Nat),
      evalF 3 (lf + 1) (.list [.tok "if", .tok "#t", A, B]) env st
        = evalBody (fun e en s => evalF 2 (lf + 1) e en s) lf A env st)
  ∧ (∀ (A B : Expression) (env : EnvRef) (st : Store) (lf : Nat),
      evalF 3 (lf + 1) (.list [.tok "if", .tok "#f", A, B]) env st
        = evalBody (fun e en s => evalF 2 (lf + 1) e en s) lf B env st)
  ∧ (∀ (A : Expression) (env : EnvRef) (st : Store),
      evalF 3 9 (.list [.tok "if", .tok "#f", A]) env st = .ok .undefObj st) :=
  ⟨fun _ _ _ _ _ => rfl, fun _ _ _ _ _ => rfl, fun _ _ _ => rfl⟩

/-- C7: `cond` desugars to nested `if`s — a clause with body expressions
is wrapped in an implicit `begin` (first conjunct, for any non-`else`
clause head and arbitrary body expressions); an exhausted clause list
yields the unspecified sentinel; `(cond (#f 1) (#t 2) (else 3))` evaluates
to `2`, `(cond (#f 1) (else 3))` to `3`; an `else` clause before the final
position is a fatal error. -/
theorem claim_C7 (s : String) (e1 e2 : Expression)
    (h : (s == "else") = false) :
    condClausesToIf [.list [.tok s, e1, e2]]
      = .ok (makeIf (.tok s) (.list [.tok "begin", e1, e2]) .undefObj)
  ∧ evalF 9 9 (.list [.tok "cond", .list [.tok "#f", .tok "1"],
      .list [.tok "#t", .tok "2"], .list [.tok "else", .tok "3"]]) 0 rootStore
      = .ok (.num 2) rootStore
  ∧ evalF 9 9 (.list [.tok "cond", .list [.tok "#f", .tok "1"],
      .list [.tok "else", .tok "3"]]) 0 rootStore = .ok (.num 3) rootStore
  ∧ evalF 9 9 (.list [.tok "cond", .list [.tok "else", .tok "1"],
      .list [.tok "#t", .tok "2"]]) 0 rootStore
      = .err .elseNotLast rootStore
  ∧ evalF 9 9 (.list [.tok "cond", .list [.tok "#f", .tok "1"]]) 0 rootStore
      = .ok .undefObj rootStore := by
  refine ⟨?_, rfl, rfl, rfl, rfl⟩
  simp [condClausesToIf, isElseTok, h, makeIf, sequenceToExp]
  rfl

/-- C7 witness: the desugaring conjunct at the concrete clause
`(#t 1 2)`. -/
theorem claim_C7_witness :
    (("#t" == "else") = false)
  ∧ (condClausesToIf [.list [.tok "#t", .tok "1", .tok "2"]]
      = .ok (makeIf (.tok "#t") (.list [.tok "begin", .tok "1", .tok "2"])
          .undefObj)
  ∧ evalF 9 9 (.list [.tok "cond", .list [.tok "#f", .tok "1"],
      .list [.tok "#t", .tok "2"], .list [.tok "else", .tok "3"]]) 0 rootStore
      = .ok (.num 2) rootStore
  ∧ evalF 9 9 (.list [.tok "cond", .list [.tok "#f", .tok "1"],
      .list [.tok "else", .tok "3"]]) 0 rootStore = .ok (.num 3) rootStore
  ∧ evalF 9 9 (.list [.tok "cond", .list [.tok "else", .tok "1"],
      .list [.tok "#t", .tok "2"]]) 0 rootStore
      = .err .elseNotLast rootStore
  ∧ evalF 9 9 (.list [.tok "cond", .list [.tok "#f", .tok "1"]]) 0 rootStore
      = .ok .undefObj rootStore) :=
  ⟨by decide, claim_C7 "#t" (.tok "1") (.tok "2") (by decide)⟩

/-- C8: the value handed to `eval` must satisfy the proper-list check —
the improper pair `(cons 1 2)` fails it and raises the fatal
malformed-list error at the `eval` boundary (with `validEvalExp` rejecting
the improper pair, first two conjuncts); a failure during the secondary
evaluation (here: the unbound symbol inside `(eval (quote (zzz)))`) is
caught by `EvalAll`'s recover and the `eval` form still returns normally
instead of propagating the error; a well-formed value round-trips and
evaluates (`(eval (quote (+ 1 2)))` is `3`). -/
theorem claim_C8 :
    validEvalExp (.pairE (.num 1) (.num 2)) = false
  ∧ evalF 9 20 (.list [.tok "eval", .list [.tok "cons", .tok "1", .tok "2"]])
      0 rootStore = .err .malformedList rootStore
  ∧ evalF 9 20 (.list [.tok "eval", .list [.tok "quote",
      .list [.tok "zzz"]]]) 0 rootStore = .ok .nilE rootStore
  ∧ valueOf (evalF 9 20 (.list [.tok "eval", .list [.tok "quote",
      .list [.tok "+", .tok "1", .tok "2"]]]) 0 rootStore)
      = some (.num 3) :=
  ⟨rfl, rfl, rfl, rfl⟩

/-- C9: quoting a compound form recursively quotes each element and
materializes the results as a `Pair`-chain runtime list (first conjunct,
for any element list whose recursive quoting succeeds); numeric tokens
decode to numbers, string literals to strings, other atoms to `Quote`
symbols; and `(quote (1 2 3))` yields a proper list that `apply` unpacks
positionally — a three-parameter closure sees `a = 1`, `b = 2`,
`c = 3`. -/
theorem claim_C9 (es args : List Expression)
    (h : evalQuoteList es = .ok args) :
    evalQuote (.list es) = .ok (listImpl args)
  ∧ evalQuote (.tok "42") = .ok (.num 42)
  ∧ evalQuote (.tok "\"hi\"") = .ok (.strE "hi")
  ∧ evalQuote (.tok "abc") = .ok (.quoteE "abc")
  ∧ evalF 5 9 (.list [.tok "quote", .list [.tok "1", .tok "2", .tok "3"]])
      0 rootStore
      = .ok (.pairE (.num 1) (.pairE (.num 2) (.pairE (.num 3) .nilE)))
          rootStore
  ∧ valueOf (evalF 9 20 (applyDemo (.tok "a")) 0 rootStore) = some (.num 1)
  ∧ valueOf (evalF 9 20 (applyDemo (.tok "b")) 0 rootStore) = some (.num 2)
  ∧ valueOf (evalF 9 20 (applyDemo (.tok "c")) 0 rootStore)
      = some (.num 3) := by
  refine ⟨?_, rfl, rfl, rfl, rfl, rfl, rfl, rfl⟩
  simp [evalQuote, h]
  rfl

/-- C9 witness: the materialization conjunct at the concrete element list
`["1"]`. -/
theorem claim_C9_witness :
    (evalQuoteList [.tok "1"] = .ok [.num 1])
  ∧ (evalQuote (.list [.tok "1"]) = .ok (listImpl [.num 1])
  ∧ evalQuote (.tok "42") = .ok (.num 42)
  ∧ evalQuote (.tok "\"hi\"") = .ok (.strE "hi")
  ∧ evalQuote (.tok "abc") = .ok (.quoteE "abc")
  ∧ evalF 5 9 (.list [.tok "quote", .list [.tok "1", .tok "2", .tok "3"]])
      0 rootStore
      = .ok (.pairE (.num 1) (.pairE (.num 2) (.pairE (.num 3) .nilE)))
          rootStore
  ∧ valueOf (evalF 9 20 (applyDemo (.tok "a")) 0 rootStore) = some (.num 1)
  ∧ valueOf (evalF 9 20 (applyDemo (.tok "b")) 0 rootStore) = some (.num 2)
  ∧ valueOf (evalF 9 20 (applyDemo (.tok "c")) 0 rootStore)
      = some (.num 3)) :=
  ⟨rfl, claim_C9 [.tok "1"] [.num 1] rfl⟩

/-- C10: evaluating `(begin)` — the one-element compound form holding only
the keyword — hits the Go slice expression `exp[1:0]` in `evalBegin` and
panics with a slice-bounds runtime error, for every environment and store;
that error is not one of the specification's named interpreter-error
kinds. -/
theorem claim_C10 :
    (∀ (env : EnvRef) (st : Store),
      evalF 2 2 (.list [.tok "begin"]) env st = .err .sliceBounds st)
  ∧ isNamedInterpreterError .sliceBounds = false :=
  ⟨fun _ _ => rfl, rfl⟩

end GoScheme
